import Mathlib

/-!
Verification of the termbox-rs terminal binding.

The repository holds two snapshots of the binding:
* an older one at `src/lib.rs` (embedded below in namespace `OldTB`), whose
  `Termbox::new` returns `Result<Termbox, String>` and whose `blit` performs
  the rectangle clipping in Rust; and
* a newer one at `src/src/lib.rs` with `src/src/internal.rs` (embedded below
  in namespace `NewTB`), whose `Termbox::open` returns
  `Result<Termbox, InitError>`, which decodes mouse events, and whose input
  mode handling masks the mouse flag.

Rust `i32`/`c_int` values are modelled as `Int`.  Where the source performs
arithmetic that can overflow — the older snapshot's `blit`, whose Rust-0.12
`i32` arithmetic wraps silently and whose `as uint` casts sign-extend — the
embedding wraps explicitly (`OldTB.wrap32`, `OldTB.as_usize`), and the
theorems about it carry range hypotheses under which the wrapped and
unbounded values agree.  Values that are only compared for equality against
constants are kept as plain `Int`/`Nat`; `u8`/`u16`/`u32` values that are
matched against small constants or passed through verbatim are modelled as
`Nat`.  A Rust panic (a failed `assert!`, an `Option::unwrap` on `None`, or
an out-of-bounds slice index) is modelled by the `panicked` constructor of
`PResult`.
-/

/-- Result of a Rust computation that can panic: either a value or a panic
(`assert!` failure or `Option::unwrap` on `None`). -/
inductive PResult (α : Type) : Type where
  | ok (val : α) : PResult α
  | panicked : PResult α
deriving DecidableEq, Repr

/-- Models `Option::unwrap`: the value on `Some`, a panic on `None`. -/
def unwrapP {α : Type} : Option α → PResult α
  | some a => .ok a
  | none => .panicked

/-- Maps a function over the value of a `PResult`, preserving panics. -/
def PResult.map {α β : Type} (f : α → β) : PResult α → PResult β
  | .ok a => .ok (f a)
  | .panicked => .panicked

/-- Models Rust `char::from_u32` on a raw 32-bit code point, keeping the code
point as a `Nat`: `some` exactly on valid Unicode scalar values (not a
surrogate, at most `0x10FFFF`). -/
def char_from_u32 (n : Nat) : Option Nat :=
  if (0xD800 ≤ n ∧ n ≤ 0xDFFF) ∨ 0x10FFFF < n then none else some n

namespace NewTB

/-! Driver constants used by `src/src/lib.rs`.  They come from the external
`termbox_sys` crate (the spec's "driver"); the values below are the fixed
integer contracts of the termbox driver interface that spec section 6 requires
to be preserved exactly. -/

/-- Driver constant `TB_EVENT_KEY` (event kind tag). -/
def TB_EVENT_KEY : Nat := 1

/-- Driver constant `TB_EVENT_RESIZE` (event kind tag). -/
def TB_EVENT_RESIZE : Nat := 2

/-- Driver constant `TB_EVENT_MOUSE` (event kind tag). -/
def TB_EVENT_MOUSE : Nat := 3

/-- Driver constant `TB_MOD_ALT` (alt-modifier bit of the `emod` field). -/
def TB_MOD_ALT : Nat := 1

/-- Driver constant `TB_INPUT_CURRENT`: query the input mode without change. -/
def TB_INPUT_CURRENT : Nat := 0

/-- Driver constant `TB_INPUT_ESC`. -/
def TB_INPUT_ESC : Nat := 1

/-- Driver constant `TB_INPUT_ALT`. -/
def TB_INPUT_ALT : Nat := 2

/-- Driver constant `TB_INPUT_MOUSE`: the orthogonal mouse-enable flag. -/
def TB_INPUT_MOUSE : Nat := 4

/-- Driver constant `TB_OUTPUT_NORMAL`. -/
def TB_OUTPUT_NORMAL : Nat := 1

/-- Driver constant `TB_OUTPUT_256`. -/
def TB_OUTPUT_256 : Nat := 2

/-- Driver constant `TB_OUTPUT_216`. -/
def TB_OUTPUT_216 : Nat := 3

/-- Driver constant `TB_OUTPUT_GRAYSCALE`. -/
def TB_OUTPUT_GRAYSCALE : Nat := 4

/-- Driver constant `TB_KEY_MOUSE_LEFT` (`0xFFFF - 22`). -/
def TB_KEY_MOUSE_LEFT : Nat := 0xFFFF - 22

/-- Driver constant `TB_KEY_MOUSE_RIGHT` (`0xFFFF - 23`). -/
def TB_KEY_MOUSE_RIGHT : Nat := 0xFFFF - 23

/-- Driver constant `TB_KEY_MOUSE_MIDDLE` (`0xFFFF - 24`). -/
def TB_KEY_MOUSE_MIDDLE : Nat := 0xFFFF - 24

/-- Driver constant `TB_KEY_MOUSE_RELEASE` (`0xFFFF - 25`). -/
def TB_KEY_MOUSE_RELEASE : Nat := 0xFFFF - 25

/-- Driver constant `TB_KEY_MOUSE_WHEEL_UP` (`0xFFFF - 26`). -/
def TB_KEY_MOUSE_WHEEL_UP : Nat := 0xFFFF - 26

/-- Driver constant `TB_KEY_MOUSE_WHEEL_DOWN` (`0xFFFF - 27`). -/
def TB_KEY_MOUSE_WHEEL_DOWN : Nat := 0xFFFF - 27

/-- Driver constant `TB_EUNSUPPORTED_TERMINAL` (`tb_init` failure code). -/
def TB_EUNSUPPORTED_TERMINAL : Int := -1

/-- Driver constant `TB_EFAILED_TO_OPEN_TTY` (`tb_init` failure code). -/
def TB_EFAILED_TO_OPEN_TTY : Int := -2

/-- Driver constant `TB_EPIPE_TRAP_ERROR` (`tb_init` failure code). -/
def TB_EPIPE_TRAP_ERROR : Int := -3

/-- The constant `INPUT_MODE_MASK` of `src/src/lib.rs`: "Must cover all bits
used by input modes, excluding flags such as TB_INPUT_MOUSE." -/
def INPUT_MODE_MASK : Nat := 3

/-- The raw event record `ffi::RawEvent` filled in by the driver:
`etype`/`emod` are `u8`, `key` a `u16`, `ch` a `u32` (modelled as `Nat`),
and `w`, `h`, `x`, `y` are `i32` (modelled as `Int`). -/
structure RawEvent : Type where
  etype : Nat
  emod : Nat
  key : Nat
  ch : Nat
  w : Int
  h : Int
  x : Int
  y : Int
deriving DecidableEq, Repr

/-- The `InputMode` enum of `src/src/lib.rs`. -/
inductive InputMode : Type where
  | esc
  | alt
deriving DecidableEq, Repr

/-- Embeds `InputMode::from_raw`: match on `raw & INPUT_MODE_MASK`. -/
def InputMode.from_raw (raw : Nat) : Option InputMode :=
  match raw &&& INPUT_MODE_MASK with
  | 1 => some InputMode.esc
  | 2 => some InputMode.alt
  | _ => none

/-- Embeds `InputMode::to_raw`. -/
def InputMode.to_raw : InputMode → Nat
  | InputMode.esc => TB_INPUT_ESC
  | InputMode.alt => TB_INPUT_ALT

/-- The `OutputMode` enum of `src/src/lib.rs`. -/
inductive OutputMode : Type where
  | normal
  | color256
  | color216
  | grayscale
deriving DecidableEq, Repr

/-- Embeds `OutputMode::from_raw`. -/
def OutputMode.from_raw (raw : Nat) : Option OutputMode :=
  match raw with
  | 1 => some OutputMode.normal
  | 2 => some OutputMode.color256
  | 3 => some OutputMode.color216
  | 4 => some OutputMode.grayscale
  | _ => none

/-- Embeds `OutputMode::to_raw`. -/
def OutputMode.to_raw : OutputMode → Nat
  | OutputMode.normal => TB_OUTPUT_NORMAL
  | OutputMode.color256 => TB_OUTPUT_256
  | OutputMode.color216 => TB_OUTPUT_216
  | OutputMode.grayscale => TB_OUTPUT_GRAYSCALE

/-- The `KeyEvent` struct of `src/src/lib.rs`: key code (`u16`), optional
Unicode code point, alt flag. -/
structure KeyEvent : Type where
  key : Nat
  ch : Option Nat
  alt : Bool
deriving DecidableEq, Repr

/-- Embeds `KeyEvent::from_raw`: succeeds exactly on the key kind tag; the
character field is Unicode-validated with `char::from_u32`, the alt flag is
the `TB_MOD_ALT` bit test. -/
def KeyEvent.from_raw (raw : RawEvent) : Option KeyEvent :=
  if raw.etype = TB_EVENT_KEY then
    some { key := raw.key, ch := char_from_u32 raw.ch,
           alt := raw.emod &&& TB_MOD_ALT != 0 }
  else
    none

/-- The `MouseButton` enum of `src/src/lib.rs`. -/
inductive MouseButton : Type where
  | left
  | right
  | middle
  | release
  | wheelUp
  | wheelDown
deriving DecidableEq, Repr

/-- Embeds `MouseButton::from_raw`: the six known mouse key codes decode, any
other key code is `None`. -/
def MouseButton.from_raw (raw : Nat) : Option MouseButton :=
  if raw = TB_KEY_MOUSE_LEFT then some MouseButton.left
  else if raw = TB_KEY_MOUSE_RIGHT then some MouseButton.right
  else if raw = TB_KEY_MOUSE_MIDDLE then some MouseButton.middle
  else if raw = TB_KEY_MOUSE_RELEASE then some MouseButton.release
  else if raw = TB_KEY_MOUSE_WHEEL_UP then some MouseButton.wheelUp
  else if raw = TB_KEY_MOUSE_WHEEL_DOWN then some MouseButton.wheelDown
  else none

/-- The `MouseEvent` struct of `src/src/lib.rs`. -/
structure MouseEvent : Type where
  button : MouseButton
  x : Int
  y : Int
deriving DecidableEq, Repr

/-- Embeds `MouseEvent::from_raw`: on the mouse kind tag the button is decoded
with `MouseButton::from_raw(raw.key).unwrap()` — an unknown button code
panics; on any other tag the result is `None`.  (The `NumCast` conversions of
`x` and `y` are `i32` to `i32` and never fail.) -/
def MouseEvent.from_raw (raw : RawEvent) : PResult (Option MouseEvent) :=
  if raw.etype = TB_EVENT_MOUSE then
    (unwrapP (MouseButton.from_raw raw.key)).map
      (fun b => some { button := b, x := raw.x, y := raw.y })
  else
    .ok none

/-- The `ResizeEvent` struct of `src/src/lib.rs`. -/
structure ResizeEvent : Type where
  w : Int
  h : Int
deriving DecidableEq, Repr

/-- Embeds `ResizeEvent::from_raw`: width and height are copied verbatim
(`NumCast` from `i32` to `i32` never fails). -/
def ResizeEvent.from_raw (raw : RawEvent) : Option ResizeEvent :=
  if raw.etype = TB_EVENT_RESIZE then some { w := raw.w, h := raw.h }
  else none

/-- The `Event` enum of `src/src/lib.rs`. -/
inductive Event : Type where
  | key (e : KeyEvent)
  | resize (e : ResizeEvent)
  | mouse (e : MouseEvent)
deriving DecidableEq, Repr

/-- Embeds `Event::from_raw`: dispatch on the kind tag, unwrapping the
sub-decoder of the matched kind (those unwraps can panic only in the mouse
case, via an unknown mouse button); an unmatched tag yields `None`. -/
def Event.from_raw (raw : RawEvent) : PResult (Option Event) :=
  if raw.etype = TB_EVENT_KEY then
    (unwrapP (KeyEvent.from_raw raw)).map (fun e => some (Event.key e))
  else if raw.etype = TB_EVENT_RESIZE then
    (unwrapP (ResizeEvent.from_raw raw)).map (fun e => some (Event.resize e))
  else if raw.etype = TB_EVENT_MOUSE then
    match MouseEvent.from_raw raw with
    | .ok o => (unwrapP o).map (fun e => some (Event.mouse e))
    | .panicked => .panicked
  else
    .ok none

/-- The `InitError` enum of `src/src/lib.rs`.  Note it has no variant for an
unrecognized `tb_init` code. -/
inductive InitError : Type where
  | locked
  | unsupportedTerminal
  | failedToOpenTty
  | pipeTrapError
deriving DecidableEq, Repr

/-- Embeds `InitError::from_raw`: only the three fixed failure codes decode. -/
def InitError.from_raw (raw : Int) : Option InitError :=
  if raw = TB_EUNSUPPORTED_TERMINAL then some InitError.unsupportedTerminal
  else if raw = TB_EFAILED_TO_OPEN_TTY then some InitError.failedToOpenTty
  else if raw = TB_EPIPE_TRAP_ERROR then some InitError.pipeTrapError
  else none

end NewTB

namespace NewTB

/-- The outcome of `Termbox::open` in `src/src/lib.rs`: a live session, a
typed `InitError`, or a panic (the `unwrap` of `InitError::from_raw` on an
unrecognized `tb_init` code). -/
inductive OpenResult : Type where
  | opened
  | failed (e : InitError)
  | panicked
deriving DecidableEq, Repr

/-- Embeds `Lock::acquire` of `src/src/internal.rs`: an atomic
`LOCK_FLAG.swap(true)`; the lock is obtained exactly when the old value was
`false`.  Returns the new flag value and whether the lock was acquired. -/
def Lock.acquire (flag : Bool) : Bool × Bool :=
  (true, !flag)

/-- Embeds `Termbox::open` of `src/src/lib.rs` as a function of the
process-wide lock flag and the code `tb_init` returns.  On lock contention
the flag is left `true` (held by the existing session).  On a nonzero init
code the local `Lock` value is dropped when the function leaves scope
(normally for the three named codes, by unwinding for the panic of
`InitError::from_raw(n).unwrap()` on an unknown code), storing `false`. -/
def Termbox.open_tb (flag : Bool) (init_code : Int) : Bool × OpenResult :=
  if flag then
    (true, OpenResult.failed InitError.locked)
  else if init_code = 0 then
    (true, OpenResult.opened)
  else
    match InitError.from_raw init_code with
    | some e => (false, OpenResult.failed e)
    | none => (false, OpenResult.panicked)

end NewTB

namespace NewTB

/-- Modelled from the spec: the driver call
`select_input_mode(mode) -> previous_or_new` (spec section 6), implemented by
the external termbox C library.  `TB_INPUT_CURRENT` (0) queries the current
mode without changing it; any other argument installs that mode and returns
it.  The result is the pair (new driver mode state, returned value). -/
def tb_select_input_mode (state mode : Nat) : Nat × Nat :=
  if mode = TB_INPUT_CURRENT then (state, state) else (mode, mode)

/-- Models the C-int expression `n & !mask` on nonnegative mode words: the
bits of `mask` are cleared from `n`.  Because `n &&& mask` has exactly the
mask bits of `n`, xoring it back out clears them (this equals
`Nat.ldiff n mask`, written with kernel-computable operations). -/
def and_not (n mask : Nat) : Nat :=
  n ^^^ (n &&& mask)

/-- Embeds `Termbox::set_input_mode` of `src/src/lib.rs` as a transformer of
the driver mode word: re-read the current mode, keep the flag bits outside
`INPUT_MODE_MASK`, and write back the requested mode ored with those flags. -/
def Termbox.set_input_mode (state : Nat) (mode : InputMode) : Nat :=
  let r1 := tb_select_input_mode state TB_INPUT_CURRENT
  let prev_mode := r1.2
  let flags := and_not prev_mode INPUT_MODE_MASK
  (tb_select_input_mode r1.1 (mode.to_raw ||| flags)).1

/-- Embeds `Termbox::set_mouse_enabled` of `src/src/lib.rs` as a transformer
of the driver mode word: re-read the current mode, set or clear only
`TB_INPUT_MOUSE`, and write back only when the word changed. -/
def Termbox.set_mouse_enabled (state : Nat) (enabled : Bool) : Nat :=
  let r1 := tb_select_input_mode state TB_INPUT_CURRENT
  let prev_mode := r1.2
  let new_mode := if enabled then prev_mode ||| TB_INPUT_MOUSE
                  else and_not prev_mode TB_INPUT_MOUSE
  if new_mode != prev_mode then (tb_select_input_mode r1.1 new_mode).1 else r1.1

/-- The process-wide state the lock discipline is about: the atomic
`LOCK_FLAG` of `src/src/internal.rs` and the number of live `Termbox`
sessions. -/
structure ProcState : Type where
  flag : Bool
  live : Nat
deriving DecidableEq, Repr

/-- One process-level action: a call of `Termbox::open` (with the code the
driver's `tb_init` would return) or a drop of a live session. -/
inductive Action : Type where
  | openA (init_code : Int)
  | closeA
deriving DecidableEq, Repr

/-- An `open` call as a step on the process state: the lock flag evolves as
in `Termbox.open_tb`, and the live-session count grows exactly on success. -/
def open_step (s : ProcState) (init_code : Int) : ProcState × OpenResult :=
  let r := Termbox.open_tb s.flag init_code
  (⟨r.1, if r.2 = OpenResult.opened then s.live + 1 else s.live⟩, r.2)

/-- A session drop (`impl Drop for Termbox`) as a step on the process state:
shutting down releases the lock (`LOCK_FLAG.store(false)` in the drop of
`Lock`); with no live session it is a no-op. -/
def close_step (s : ProcState) : ProcState :=
  if s.live = 0 then s else ⟨false, s.live - 1⟩

/-- Runs a sequence of actions from a process state. -/
def run (s : ProcState) : List Action → ProcState
  | [] => s
  | Action.openA code :: rest => run (open_step s code).1 rest
  | Action.closeA :: rest => run (close_step s) rest

/-- The initial process state: lock free, no live session. -/
def initState : ProcState := ⟨false, 0⟩

end NewTB

namespace OldTB

/-- The `Cell` struct of `src/lib.rs`: display character (`char`, kept as its
code point), foreground and background attributes (`u16`). -/
structure Cell : Type where
  ch : Nat
  fg : Nat
  bg : Nat
deriving DecidableEq, Repr

/-- The default cell of `src/lib.rs` (`0 as char`, zero attributes). -/
def defaultCell : Cell := ⟨0, 0, 0⟩

/-- The `KeySym` struct of `src/lib.rs`: modifier bits, key code, character.
`mods` is the `Mods` bitflags value (only bit `MOD_ALT = 0x01` is defined). -/
structure KeySym : Type where
  mods : Nat
  key : Nat
  ch : Nat
deriving DecidableEq, Repr

/-- The `Event` enum of `src/lib.rs`: key or resize, no mouse variant. -/
inductive Event : Type where
  | key (k : KeySym)
  | resize (w h : Int)
deriving DecidableEq, Repr

/-- The `ffi::tb_event` struct of `src/lib.rs` / `src/src/ffi.rs`. -/
structure tb_event : Type where
  kind : Nat
  mods : Nat
  key : Nat
  ch : Nat
  w : Int
  h : Int
deriving DecidableEq, Repr

/-- Embeds `Mods::from_bits` of the `bitflags!`-generated `Mods` type: `some`
exactly when no bit outside `MOD_ALT = 0x01` is set. -/
def Mods.from_bits (bits : Nat) : Option Nat :=
  if bits &&& 0xFE = 0 then some bits else none

/-- Embeds `tb_event::to_safe_event` of `src/src/ffi.rs` (identical in the
`ffi` module of `src/lib.rs`): a key event keeps the mods (or empties them on
unknown bits), copies the key, and validates the character, turning an
invalid code point into `0 as char`; a resize event copies width and height;
any other kind is `None`. -/
def tb_event.to_safe_event (e : tb_event) : Option Event :=
  if e.kind = 1 then
    some (Event.key
      { mods := match Mods.from_bits e.mods with
                | some mods => mods
                | none => 0,
        key := e.key,
        ch := match char_from_u32 e.ch with
              | some ch => ch
              | none => 0 })
  else if e.kind = 2 then
    some (Event.resize e.w e.h)
  else
    none

/-- The distinct error messages `Termbox::new` of `src/lib.rs` can return,
one constructor per message string:
`locked` for "only one instance of Termbox is allowed",
`unsupportedTerminal` for "unsupported terminal",
`failedToOpenTty` for "failed to open tty",
`pipeTrapError` for "pipe trap error", and
`unknown code` for the formatted catch-all "tb_init returned {code}", which
embeds the offending code and so differs from every named message. -/
inductive NewError : Type where
  | locked
  | unsupportedTerminal
  | failedToOpenTty
  | pipeTrapError
  | unknown (code : Int)
deriving DecidableEq, Repr

/-- The outcome of `Termbox::new` of `src/lib.rs`: `Ok(Termbox)` or
`Err(String)` with one of the five distinct messages. -/
inductive NewResult : Type where
  | opened
  | failed (e : NewError)
deriving DecidableEq, Repr

/-- Embeds `Termbox::new` of `src/lib.rs` as a function of the `_is_open`
atomic flag and the code `tb_init` returns: `_is_open.swap(true)` rejects a
second instance (leaving the flag `true`), and every `tb_init` failure arm —
the three named codes and the catch-all — stores `false` back before
returning its error. -/
def Termbox.new (flag : Bool) (init_code : Int) : Bool × NewResult :=
  if flag then
    (true, NewResult.failed NewError.locked)
  else if init_code = 0 then
    (true, NewResult.opened)
  else if init_code = -1 then
    (false, NewResult.failed NewError.unsupportedTerminal)
  else if init_code = -2 then
    (false, NewResult.failed NewError.failedToOpenTty)
  else if init_code = -3 then
    (false, NewResult.failed NewError.pipeTrapError)
  else
    (false, NewResult.failed (NewError.unknown init_code))

end OldTB

namespace OldTB

/-- Two's-complement wrapping of unbounded integer arithmetic to `i32`:
Rust 0.12 (the older snapshot's language version) wraps integer overflow
silently in release builds. -/
def wrap32 (n : Int) : Int :=
  (n + 2^31) % 2^32 - 2^31

/-- Models the Rust 0.12 cast `as uint` applied to an `i32` value on a
64-bit platform: the value is sign-extended and reinterpreted, so a negative
`i32` becomes a value close to `2^64`. -/
def as_usize (n : Int) : Nat :=
  (n % 2^64).toNat

/-- The inner loop of `Termbox::blit` of `src/lib.rs`: copies `cnt` source
cells starting at index `src` into the destination buffer (a slice of
`dstLen` cells) starting at index `dst`, advancing source and destination in
lockstep.  Rust slice indexing is bounds checked: an index outside
`cells`/`dstLen` panics. -/
def writeRun (cells : List Cell) (dstLen : Nat) :
    Nat → Nat → Nat → (Nat → Cell) → PResult (Nat → Cell)
  | _src, _dst, 0, buf => .ok buf
  | src, dst, cnt+1, buf =>
      if src < cells.length ∧ dst < dstLen then
        writeRun cells dstLen (src+1) (dst+1) cnt
          (Function.update buf dst (cells.getD src defaultCell))
      else
        .panicked

/-- The outer loop of `Termbox::blit` of `src/lib.rs`: for each of `rows`
rows starting at source row `cy`, copies `cols` cells from source index
`(cy*w + min_x) as uint` to destination index
`((y+cy)*buffer_width + x + min_x) as uint`, both computed in wrapping `i32`
arithmetic and then cast. -/
def blitRows (cells : List Cell) (dstLen : Nat) (W w x y min_x : Int)
    (cols : Nat) : Int → Nat → (Nat → Cell) → PResult (Nat → Cell)
  | _cy, 0, buf => .ok buf
  | cy, rows+1, buf =>
      match writeRun cells dstLen (as_usize (wrap32 (cy*w + min_x)))
          (as_usize (wrap32 ((y + cy)*W + x + min_x))) cols buf with
      | .ok buf2 => blitRows cells dstLen W w x y min_x cols (cy+1) rows buf2
      | .panicked => .panicked

/-- Embeds `Termbox::blit` of `src/lib.rs`.  The buffer of the driver is
modelled as a total map from flat row-major index to `Cell` together with
the length `(W*H) as uint` of the slice view the source constructs; `W`/`H`
are the driver's current `tb_width()`/`tb_height()` (what `get_size` returns
while the session is open).  In source order: the length assertion — against
`(w*h) as uint`, the wrapping `i32` product sign-extended by the cast — runs
first and regardless of `is_open` (a panic when it fails); then the closed
session check; then the reject of empty or fully offscreen rectangles (sums
computed in wrapping `i32` arithmetic); then the clipped row-major copy. -/
def Termbox.blit (is_open : Bool) (W H : Int) (buf : Nat → Cell)
    (x y w h : Int) (cells : List Cell) : PResult (Nat → Cell) :=
  if w > 0 ∧ h > 0 ∧ ¬(cells.length ≥ as_usize (wrap32 (w * h))) then
    .panicked
  else if ¬is_open then
    .ok buf
  else if w < 1 ∨ h < 1 ∨ wrap32 (x + w) ≤ 0 ∨ wrap32 (y + h) ≤ 0 ∨
      x ≥ W ∨ y ≥ H then
    .ok buf
  else
    let min_x := if x < 0 then wrap32 (-x) else 0
    let min_y := if y < 0 then wrap32 (-y) else 0
    let max_x := wrap32 (min (wrap32 (x + w)) W - x)
    let max_y := wrap32 (min (wrap32 (y + h)) H - y)
    blitRows cells (as_usize (wrap32 (W * H))) W w x y min_x
      ((max_x - min_x).toNat) min_y ((max_y - min_y).toNat) buf

end OldTB

namespace OldTB

/-- The `i32` wrap is the identity on values already in range. -/
lemma wrap32_eq_of (n : Int) (h1 : -(2^31) ≤ n) (h2 : n < 2^31) :
    wrap32 n = n := by
  unfold wrap32
  omega

/-- The `as uint` cast of a nonnegative in-range value is just `toNat`. -/
lemma as_usize_eq_of (n : Int) (h1 : 0 ≤ n) (h2 : n < 2^64) :
    as_usize n = n.toNat := by
  unfold as_usize
  omega

/-- Effect of one `writeRun` whose source and destination runs are in
bounds: no panic, and indices in `[dst, dst+cnt)` receive the source cells
shifted in lockstep while every other index is untouched. -/
lemma writeRun_ok (cells : List Cell) (dstLen : Nat) :
    ∀ (cnt src dst : Nat) (buf : Nat → Cell),
      src + cnt ≤ cells.length → dst + cnt ≤ dstLen →
      ∃ buf2, writeRun cells dstLen src dst cnt buf = .ok buf2 ∧
        ∀ n, buf2 n =
          if dst ≤ n ∧ n < dst + cnt
          then cells.getD (src + (n - dst)) defaultCell else buf n := by
  intro cnt
  induction cnt with
  | zero =>
      intro src dst buf hs hd
      refine ⟨buf, rfl, ?_⟩
      intro n
      rw [if_neg (by omega)]
  | succ k ih =>
      intro src dst buf hs hd
      rw [writeRun, if_pos ⟨by omega, by omega⟩]
      obtain ⟨buf2, heq, hpt⟩ := ih (src+1) (dst+1)
        (Function.update buf dst (cells.getD src defaultCell)) (by omega)
        (by omega)
      refine ⟨buf2, heq, ?_⟩
      intro n
      rw [hpt n]
      by_cases h1 : n = dst
      · subst h1
        rw [if_neg (by omega), if_pos (by omega), Function.update_same]
        congr 1
        omega
      · rw [Function.update_noteq h1]
        by_cases h2 : dst + 1 ≤ n ∧ n < dst + 1 + k
        · rw [if_pos h2, if_pos (by omega)]
          congr 1
          omega
        · rw [if_neg h2, if_neg (by omega)]

/-- A flat row-major index `Y*W + X` with `0 ≤ X < W` falls inside the run of
row `a` (which starts at column `mx` and spans `cols` cells, staying inside
the row) precisely when `Y = a` and `X` is within the run's columns. -/
lemma row_index_iff (W mx X Y a : Int) (cols : Nat) (hW : 0 < W)
    (hmx : 0 ≤ mx) (hmxc : mx + cols ≤ W) (hX : 0 ≤ X) (hXW : X < W)
    (hY : 0 ≤ Y) (ha : 0 ≤ a) :
    ((a*W + mx).toNat ≤ (Y*W + X).toNat ∧
      (Y*W + X).toNat < (a*W + mx).toNat + cols)
      ↔ (Y = a ∧ mx ≤ X ∧ X < mx + cols) := by
  have hP : 0 ≤ a * W := mul_nonneg ha hW.le
  have hQ : 0 ≤ Y * W := mul_nonneg hY hW.le
  have key1 : a + 1 ≤ Y → a * W + W ≤ Y * W := by
    intro hle
    have := mul_le_mul_of_nonneg_right hle hW.le
    nlinarith
  have key2 : Y + 1 ≤ a → Y * W + W ≤ a * W := by
    intro hle
    have := mul_le_mul_of_nonneg_right hle hW.le
    nlinarith
  constructor
  · rintro ⟨h1, h2⟩
    have hYa : Y = a := by
      rcases lt_trichotomy Y a with hlt | heq | hgt
      · have := key2 (by omega)
        omega
      · exact heq
      · have := key1 (by omega)
        omega
    subst hYa
    omega
  · rintro ⟨rfl, h3, h4⟩
    omega

/-- Effect of the row loop of `blit` in the regime where the rectangle data
fits the `i32` range (rows within a source rectangle of `w` by `h` cells,
destination rows within a `W` by `H` buffer, all four at most `2^15`): no
wrap occurs in the index arithmetic, no run leaves its slice, so no panic,
and the cell at coordinates `(X, Y)` receives source cell
`(Y-y)*w + (X-x)` when `(X, Y)` lies in one of the copied rows and columns
and is untouched otherwise. -/
lemma blitRows_ok (cells : List Cell) (dstLen : Nat) (W w x y min_x : Int)
    (cols : Nat) (h H : Int) (hW : 0 < W) (hw : 0 ≤ w) (hminx : 0 ≤ min_x)
    (hmx : 0 ≤ x + min_x) (hmxc : x + min_x + cols ≤ W)
    (hmw : min_x + cols ≤ w) (hw15 : w ≤ 2^15) (hh15 : h ≤ 2^15)
    (hW15 : W ≤ 2^15) (hH15 : H ≤ 2^15)
    (hcells : (w * h).toNat ≤ cells.length)
    (hdlen : (W * H).toNat ≤ dstLen) :
    ∀ (rows : Nat) (cy : Int) (buf : Nat → Cell),
      0 ≤ cy → 0 ≤ y + cy → cy + rows ≤ h → y + cy + rows ≤ H →
      ∃ buf2,
        blitRows cells dstLen W w x y min_x cols cy rows buf = .ok buf2 ∧
        ∀ X Y : Int, 0 ≤ X → X < W → 0 ≤ Y →
          buf2 ((Y*W + X).toNat) =
            if cy ≤ Y - y ∧ Y - y < cy + rows ∧ x + min_x ≤ X ∧
                X < x + min_x + cols
            then cells.getD ((Y - y)*w + (X - x)).toNat defaultCell
            else buf ((Y*W + X).toNat) := by
  intro rows
  induction rows with
  | zero =>
      intro cy buf hcy hycy hch hyH
      refine ⟨buf, rfl, ?_⟩
      intro X Y hX hXW hY
      rw [if_neg (by omega)]
  | succ k ih =>
      intro cy buf hcy hycy hch hyH
      have hwh : w * h = h * w := by ring
      have hWH : W * H = H * W := by ring
      have p1 : 0 ≤ cy * w := mul_nonneg hcy hw
      have p2 : (cy + 1) * w ≤ h * w :=
        mul_le_mul_of_nonneg_right (by omega) hw
      have p2x : (cy + 1) * w = cy * w + w := by ring
      have p3 : h * w ≤ 2^15 * 2^15 :=
        mul_le_mul hh15 hw15 hw (by norm_num)
      have q1 : 0 ≤ (y + cy) * W := mul_nonneg hycy hW.le
      have q2 : (y + cy + 1) * W ≤ H * W :=
        mul_le_mul_of_nonneg_right (by omega) hW.le
      have q2x : (y + cy + 1) * W = (y + cy) * W + W := by ring
      have q3 : H * W ≤ 2^15 * 2^15 :=
        mul_le_mul hH15 hW15 hW.le (by norm_num)
      have e1 : as_usize (wrap32 (cy * w + min_x)) = (cy * w + min_x).toNat := by
        rw [wrap32_eq_of _ (by omega) (by omega),
          as_usize_eq_of _ (by omega) (by omega)]
      have e2 : as_usize (wrap32 ((y + cy) * W + x + min_x)) =
          ((y + cy) * W + x + min_x).toNat := by
        rw [wrap32_eq_of _ (by omega) (by omega),
          as_usize_eq_of _ (by omega) (by omega)]
      obtain ⟨bufR, heqR, hptR⟩ := writeRun_ok cells dstLen cols
        ((cy * w + min_x).toNat) (((y + cy) * W + x + min_x).toNat) buf
        (by omega) (by omega)
      obtain ⟨buf2, heq2, hpt2⟩ := ih (cy + 1) bufR (by omega) (by omega)
        (by omega) (by omega)
      refine ⟨buf2, ?_, ?_⟩
      · rw [blitRows, e1, e2, heqR]
        exact heq2
      · intro X Y hX hXW hY
        rw [hpt2 X Y hX hXW hY]
        have hassoc : (y + cy)*W + x + min_x = (y + cy)*W + (x + min_x) := by
          ring
        rw [hassoc] at hptR
        have hiff := row_index_iff W (x + min_x) X Y (y + cy) cols hW hmx
          hmxc hX hXW hY hycy
        by_cases hIH : cy + 1 ≤ Y - y ∧ Y - y < cy + 1 + k ∧
            x + min_x ≤ X ∧ X < x + min_x + cols
        · rw [if_pos hIH, if_pos (by omega)]
        · rw [if_neg hIH, hptR ((Y*W + X).toNat)]
          by_cases hrow : Y = y + cy ∧ x + min_x ≤ X ∧ X < x + min_x + cols
          · rw [if_pos (hiff.mpr hrow), if_pos (by omega)]
            obtain ⟨hYcy, hx1, hx2⟩ := hrow
            subst hYcy
            have he1 : y + cy - y = cy := by ring
            rw [he1]
            congr 1
            omega
          · rw [if_neg (fun hc => hrow (hiff.mp hc)), if_neg (by omega)]

/-- An example buffer filled with one repeated cell, used by the concrete
witnesses below. -/
def exBuf : Nat → Cell := fun _ => ⟨9, 9, 9⟩

/-- The five source cells A, B, C, D, E of the spec's blit example. -/
def exCells : List Cell :=
  [⟨65, 0, 0⟩, ⟨66, 0, 0⟩, ⟨67, 0, 0⟩, ⟨68, 0, 0⟩, ⟨69, 0, 0⟩]

end OldTB

namespace NewTB

lemma testBit_one (i : Nat) : (1:Nat).testBit i = decide (i = 0) := by
  have h : (1:Nat) = 2^0 := by norm_num
  rw [h, Nat.testBit_two_pow]
  simp [eq_comm]

lemma testBit_two (i : Nat) : (2:Nat).testBit i = decide (i = 1) := by
  have h : (2:Nat) = 2^1 := by norm_num
  rw [h, Nat.testBit_two_pow]
  simp [eq_comm]

lemma testBit_three (i : Nat) : (3:Nat).testBit i = decide (i < 2) := by
  have h : (3:Nat) = 2^2 - 1 := by norm_num
  rw [h, Nat.testBit_two_pow_sub_one]

lemma testBit_four (i : Nat) : (4:Nat).testBit i = decide (i = 2) := by
  have h : (4:Nat) = 2^2 := by norm_num
  rw [h, Nat.testBit_two_pow]
  simp [eq_comm]

lemma and_not_testBit (n mask : Nat) (i : Nat) :
    (and_not n mask).testBit i = (n.testBit i && !(mask.testBit i)) := by
  simp only [and_not, Nat.testBit_xor, Nat.testBit_land]
  cases n.testBit i <;> cases mask.testBit i <;> rfl

lemma lor_four_mask_three (s : Nat) : (s ||| 4) &&& 3 = s &&& 3 := by
  apply Nat.eq_of_testBit_eq
  intro i
  simp only [Nat.testBit_land, Nat.testBit_lor, testBit_three, testBit_four]
  rcases Nat.lt_or_ge i 2 with h | h
  · simp [h, show i ≠ 2 by omega]
  · simp [show ¬(i < 2) by omega]

lemma and_not_four_mask_three (s : Nat) : and_not s 4 &&& 3 = s &&& 3 := by
  apply Nat.eq_of_testBit_eq
  intro i
  simp only [Nat.testBit_land, and_not_testBit, testBit_three, testBit_four]
  rcases Nat.lt_or_ge i 2 with h | h
  · simp [h, show i ≠ 2 by omega]
  · simp [show ¬(i < 2) by omega]

lemma lor_four_lor_four (s : Nat) : (s ||| 4) ||| 4 = s ||| 4 := by
  apply Nat.eq_of_testBit_eq
  intro i
  simp only [Nat.testBit_lor]
  cases (s.testBit i) <;> cases ((4:Nat).testBit i) <;> rfl

lemma and_not_and_not (s mask : Nat) :
    and_not (and_not s mask) mask = and_not s mask := by
  apply Nat.eq_of_testBit_eq
  intro i
  simp only [and_not_testBit]
  cases (s.testBit i) <;> cases (mask.testBit i) <;> rfl

lemma lor_four_ne_zero (s : Nat) : s ||| 4 ≠ 0 := by
  intro h
  have h2 := congrArg (fun n => Nat.testBit n 2) h
  simp only [Nat.testBit_lor, testBit_four] at h2
  simp at h2

end NewTB

namespace NewTB

lemma set_mouse_enabled_true (s : Nat) :
    Termbox.set_mouse_enabled s true = s ||| 4 := by
  by_cases heq : s ||| 4 = s
  · simp [Termbox.set_mouse_enabled, tb_select_input_mode, TB_INPUT_CURRENT,
      TB_INPUT_MOUSE, heq]
  · simp [Termbox.set_mouse_enabled, tb_select_input_mode, TB_INPUT_CURRENT,
      TB_INPUT_MOUSE, heq, lor_four_ne_zero s]

lemma set_mouse_enabled_false (s : Nat) :
    Termbox.set_mouse_enabled s false =
      if and_not s 4 = 0 then s else and_not s 4 := by
  by_cases heq : and_not s 4 = s
  · by_cases hz : and_not s 4 = 0 <;>
      simp [Termbox.set_mouse_enabled, tb_select_input_mode, TB_INPUT_CURRENT,
        TB_INPUT_MOUSE, heq, hz]
  · by_cases hz : and_not s 4 = 0 <;>
      simp [Termbox.set_mouse_enabled, tb_select_input_mode, TB_INPUT_CURRENT,
        TB_INPUT_MOUSE, heq, hz]

lemma to_raw_lor_ne_zero (m : InputMode) (b : Nat) : m.to_raw ||| b ≠ 0 := by
  intro h
  have h2 := congrArg (fun n => Nat.testBit n 0) h
  have h3 := congrArg (fun n => Nat.testBit n 1) h
  cases m <;>
    simp only [InputMode.to_raw, TB_INPUT_ESC, TB_INPUT_ALT, Nat.testBit_lor,
      testBit_one, testBit_two] at h2 h3 <;> simp at h2 h3

lemma set_input_mode_eq (s : Nat) (m : InputMode) :
    Termbox.set_input_mode s m = m.to_raw ||| and_not s 3 := by
  simp [Termbox.set_input_mode, tb_select_input_mode, TB_INPUT_CURRENT,
    INPUT_MODE_MASK, to_raw_lor_ne_zero m (and_not s 3)]

end NewTB

/-- C9: mouse toggle independence. -/
theorem c9_mouse_toggle_independence (state : Nat) (enabled : Bool)
    (mode : NewTB.InputMode) :
    NewTB.Termbox.set_mouse_enabled state enabled &&& NewTB.INPUT_MODE_MASK
        = state &&& NewTB.INPUT_MODE_MASK ∧
    NewTB.Termbox.set_mouse_enabled
        (NewTB.Termbox.set_mouse_enabled state enabled) enabled
        = NewTB.Termbox.set_mouse_enabled state enabled ∧
    NewTB.Termbox.set_input_mode state mode &&& NewTB.TB_INPUT_MOUSE
        = state &&& NewTB.TB_INPUT_MOUSE := by
  refine ⟨?_, ?_, ?_⟩
  · cases enabled
    · rw [NewTB.set_mouse_enabled_false]
      by_cases hz : NewTB.and_not state 4 = 0
      · rw [if_pos hz]
      · rw [if_neg hz]
        exact NewTB.and_not_four_mask_three state
    · rw [NewTB.set_mouse_enabled_true]
      exact NewTB.lor_four_mask_three state
  · cases enabled
    · rw [NewTB.set_mouse_enabled_false state]
      by_cases hz : NewTB.and_not state 4 = 0
      · rw [if_pos hz, NewTB.set_mouse_enabled_false state, if_pos hz]
      · rw [if_neg hz, NewTB.set_mouse_enabled_false, NewTB.and_not_and_not,
          if_neg hz]
    · rw [NewTB.set_mouse_enabled_true, NewTB.set_mouse_enabled_true,
        NewTB.lor_four_lor_four]
  · rw [NewTB.set_input_mode_eq]
    apply Nat.eq_of_testBit_eq
    intro i
    simp only [NewTB.INPUT_MODE_MASK, NewTB.TB_INPUT_MOUSE, Nat.testBit_land,
      Nat.testBit_lor, NewTB.and_not_testBit, NewTB.testBit_three,
      NewTB.testBit_four]
    cases mode <;>
      simp only [NewTB.InputMode.to_raw, NewTB.TB_INPUT_ESC, NewTB.TB_INPUT_ALT,
        NewTB.testBit_one, NewTB.testBit_two] <;>
      by_cases h : i = 2 <;> simp [h]

namespace NewTB

/-- The reachable lock states: the flag is held exactly when one session is
live, and never more than one is. -/
def LockInv (s : ProcState) : Prop :=
  (s.flag = true ∧ s.live = 1) ∨ (s.flag = false ∧ s.live = 0)

lemma open_step_inv (s : ProcState) (code : Int) (h : LockInv s) :
    LockInv (open_step s code).1 := by
  rcases h with ⟨hf, hl⟩ | ⟨hf, hl⟩
  · simp [LockInv, open_step, Termbox.open_tb, hf, hl]
  · by_cases hc : code = 0
    · simp [LockInv, open_step, Termbox.open_tb, hf, hl, hc]
    · simp only [LockInv, open_step, Termbox.open_tb, hf, hl, hc,
        InitError.from_raw]
      split_ifs <;> simp_all
lemma close_step_inv (s : ProcState) (h : LockInv s) :
    LockInv (close_step s) := by
  rcases h with ⟨hf, hl⟩ | ⟨hf, hl⟩ <;> simp [LockInv, close_step, hf, hl]

lemma run_inv (acts : List Action) :
    ∀ s : ProcState, LockInv s → LockInv (run s acts) := by
  induction acts with
  | nil => intro s h; exact h
  | cons a rest ih =>
      intro s h
      cases a with
      | openA code => exact ih _ (open_step_inv s code h)
      | closeA => exact ih _ (close_step_inv s h)

end NewTB

/-- C1: at most one live Termbox session exists per process at any instant:
along every sequence of open and drop actions from the initial state, at most
one session is live; while one is live, every further `open` returns the
`Locked` error and leaves the process state unchanged; and of two racing
(atomically serialized) acquisitions at most one can succeed — exactly one
when the lock is free and `tb_init` succeeds. -/
theorem c1_singleton_session (acts : List NewTB.Action) :
    (NewTB.run NewTB.initState acts).live ≤ 1 ∧
    (1 ≤ (NewTB.run NewTB.initState acts).live →
      ∀ code, NewTB.open_step (NewTB.run NewTB.initState acts) code =
        (NewTB.run NewTB.initState acts,
          NewTB.OpenResult.failed NewTB.InitError.locked)) ∧
    (∀ c1 c2 : Int,
      ¬((NewTB.open_step (NewTB.run NewTB.initState acts) c1).2 =
          NewTB.OpenResult.opened ∧
        (NewTB.open_step
            (NewTB.open_step (NewTB.run NewTB.initState acts) c1).1 c2).2 =
          NewTB.OpenResult.opened)) ∧
    ((NewTB.run NewTB.initState acts).flag = false →
      (NewTB.open_step (NewTB.run NewTB.initState acts) 0).2 =
          NewTB.OpenResult.opened ∧
        (NewTB.open_step
            (NewTB.open_step (NewTB.run NewTB.initState acts) 0).1 0).2 =
          NewTB.OpenResult.failed NewTB.InitError.locked) := by
  have hinv : NewTB.LockInv (NewTB.run NewTB.initState acts) :=
    NewTB.run_inv acts NewTB.initState (Or.inr ⟨rfl, rfl⟩)
  revert hinv
  generalize NewTB.run NewTB.initState acts = s
  intro hinv
  refine ⟨?_, ?_, ?_, ?_⟩
  · rcases hinv with ⟨_, hl⟩ | ⟨_, hl⟩ <;> omega
  · intro hlive code
    rcases hinv with ⟨hf, hl⟩ | ⟨hf, hl⟩
    · obtain ⟨flag, live⟩ := s
      obtain rfl : flag = true := hf
      obtain rfl : live = 1 := hl
      simp [NewTB.open_step, NewTB.Termbox.open_tb]
    · omega
  · intro c1 c2
    rintro ⟨h1, h2⟩
    by_cases hf : s.flag
    · simp [NewTB.open_step, NewTB.Termbox.open_tb, hf] at h1
    · simp only [Bool.not_eq_true] at hf
      by_cases hc : c1 = 0
      · simp [NewTB.open_step, NewTB.Termbox.open_tb, hf, hc] at h1 h2
      · simp only [NewTB.open_step, NewTB.Termbox.open_tb, hf, hc,
          NewTB.InitError.from_raw] at h1
        split_ifs at h1
  · intro hf
    constructor
    · simp [NewTB.open_step, NewTB.Termbox.open_tb, hf]
    · simp [NewTB.open_step, NewTB.Termbox.open_tb, hf]

/-- Closed consequence of `c1_singleton_session` at a concrete trace: after a
successful `open`, one session is live and a further `open` (with a driver
that would succeed) is rejected as `Locked` without a state change. -/
theorem c1_singleton_session_witness :
    NewTB.open_step (NewTB.run NewTB.initState [NewTB.Action.openA 0]) 0 =
      (NewTB.run NewTB.initState [NewTB.Action.openA 0],
        NewTB.OpenResult.failed NewTB.InitError.locked) :=
  (c1_singleton_session [NewTB.Action.openA 0]).2.1 (by decide) 0

/-- C7: the lock is released on every failed open: lock contention aside
(initial flag `false`), whenever `tb_init` reports any nonzero code, both
`Termbox::open` (newer snapshot) and `Termbox::new` (older snapshot) leave
the process-wide flag `false` again on return, so a subsequent open is not
spuriously rejected as `Locked`. -/
theorem c7_lock_released_on_failed_open (code : Int) (hcode : code ≠ 0) :
    (NewTB.Termbox.open_tb false code).1 = false ∧
    (OldTB.Termbox.new false code).1 = false := by
  constructor
  · unfold NewTB.Termbox.open_tb
    rw [if_neg (by simp), if_neg hcode]
    cases NewTB.InitError.from_raw code <;> rfl
  · unfold OldTB.Termbox.new
    rw [if_neg (by simp), if_neg hcode]
    split_ifs <;> rfl

/-- Closed consequence of `c7_lock_released_on_failed_open` at the concrete
failure code `-1` (unsupported terminal). -/
theorem c7_lock_released_on_failed_open_witness :
    (NewTB.Termbox.open_tb false (-1)).1 = false ∧
    (OldTB.Termbox.new false (-1)).1 = false :=
  c7_lock_released_on_failed_open (-1) (by decide)

/-- C6 counterexample: with the lock free and `tb_init` returning `7` — a
nonzero code outside the three fixed codes — `Termbox::open` of
`src/src/lib.rs` panics (`InitError::from_raw` yields `None` and the `unwrap`
fails), so the caller does not receive any typed error value. -/
theorem c6_unknown_init_counterexample :
    (NewTB.Termbox.open_tb false 7).2 = NewTB.OpenResult.panicked := by
  decide

/-- C6 as amended: a `tb_init` code outside the fixed set {0, -1, -2, -3} is
never coerced into one of the named errors: `InitError::from_raw` decodes it
to no variant, `Termbox::open` (newer snapshot) panics on it rather than
returning any `InitError`, and `Termbox::new` (older snapshot) returns the
distinct catch-all message "tb_init returned {code}", which differs from
every named error message. -/
theorem c6_unknown_init_amended (code : Int) (h1 : code ≠ 0) (h2 : code ≠ -1)
    (h3 : code ≠ -2) (h4 : code ≠ -3) :
    NewTB.InitError.from_raw code = none ∧
    (NewTB.Termbox.open_tb false code).2 = NewTB.OpenResult.panicked ∧
    (OldTB.Termbox.new false code).2 =
      OldTB.NewResult.failed (OldTB.NewError.unknown code) ∧
    (OldTB.NewError.unknown code ≠ OldTB.NewError.locked ∧
      OldTB.NewError.unknown code ≠ OldTB.NewError.unsupportedTerminal ∧
      OldTB.NewError.unknown code ≠ OldTB.NewError.failedToOpenTty ∧
      OldTB.NewError.unknown code ≠ OldTB.NewError.pipeTrapError) := by
  have hfr : NewTB.InitError.from_raw code = none := by
    simp [NewTB.InitError.from_raw, NewTB.TB_EUNSUPPORTED_TERMINAL,
      NewTB.TB_EFAILED_TO_OPEN_TTY, NewTB.TB_EPIPE_TRAP_ERROR, h2, h3, h4]
  refine ⟨hfr, ?_, ?_, by simp, by simp, by simp, by simp⟩
  · simp [NewTB.Termbox.open_tb, h1, hfr]
  · simp [OldTB.Termbox.new, h1, h2, h3, h4]

/-- Closed consequence of `c6_unknown_init_amended` at the concrete unknown
code `7`. -/
theorem c6_unknown_init_amended_witness :
    NewTB.InitError.from_raw 7 = none ∧
    (NewTB.Termbox.open_tb false 7).2 = NewTB.OpenResult.panicked ∧
    (OldTB.Termbox.new false 7).2 =
      OldTB.NewResult.failed (OldTB.NewError.unknown 7) ∧
    (OldTB.NewError.unknown 7 ≠ OldTB.NewError.locked ∧
      OldTB.NewError.unknown 7 ≠ OldTB.NewError.unsupportedTerminal ∧
      OldTB.NewError.unknown 7 ≠ OldTB.NewError.failedToOpenTty ∧
      OldTB.NewError.unknown 7 ≠ OldTB.NewError.pipeTrapError) :=
  c6_unknown_init_amended 7 (by decide) (by decide) (by decide) (by decide)

/-- C2: blit clipping correctness: for a buffer of positive width `W` and
height `H` and a call `blit(x, y, w, h, cells)` on an open session with
`w > 0`, `h > 0` and `cells.len() >= w*h`, all inside the range where the
`i32` arithmetic of the source cannot wrap (dimensions at most `2^15`,
offsets at most `2^30` in magnitude — any real terminal), the call succeeds
and the resulting buffer holds, at every coordinate `(X, Y)` inside the
buffer, the source cell `(Y-y)*w + (X-x)` when `(X, Y)` lies in the
requested rectangle (row-major, source and destination in lockstep), and its
previous cell otherwise: exactly the intersection of the rectangle with the
buffer is written. -/
theorem c2_blit_clipping (W H : Int) (buf : Nat → OldTB.Cell) (x y w h : Int)
    (cells : List OldTB.Cell) (hW : 0 < W) (hH : 0 < H) (hw : 0 < w)
    (hh : 0 < h) (hW15 : W ≤ 2^15) (hH15 : H ≤ 2^15) (hw15 : w ≤ 2^15)
    (hh15 : h ≤ 2^15) (hx30 : -(2^30) ≤ x ∧ x ≤ 2^30)
    (hy30 : -(2^30) ≤ y ∧ y ≤ 2^30)
    (hlen : (w * h).toNat ≤ cells.length) :
    ∃ buf2,
      OldTB.Termbox.blit true W H buf x y w h cells = PResult.ok buf2 ∧
      ∀ X Y : Int, 0 ≤ X → X < W → 0 ≤ Y → Y < H →
        buf2 ((Y*W + X).toNat) =
          if x ≤ X ∧ X < x + w ∧ y ≤ Y ∧ Y < y + h
          then cells.getD ((Y - y)*w + (X - x)).toNat OldTB.defaultCell
          else buf ((Y*W + X).toNat) := by
  have hwh1 : 0 < w * h := mul_pos hw hh
  have hwh2 : w * h ≤ 2^15 * 2^15 := mul_le_mul hw15 hh15 hh.le (by norm_num)
  have hWH1 : 0 < W * H := mul_pos hW hH
  have hWH2 : W * H ≤ 2^15 * 2^15 := mul_le_mul hW15 hH15 hH.le (by norm_num)
  have hassert : OldTB.as_usize (OldTB.wrap32 (w * h)) = (w * h).toNat := by
    rw [OldTB.wrap32_eq_of _ (by omega) (by omega),
      OldTB.as_usize_eq_of _ (by omega) (by omega)]
  have hnp : ¬(w > 0 ∧ h > 0 ∧
      ¬(cells.length ≥ OldTB.as_usize (OldTB.wrap32 (w * h)))) := by
    rw [hassert]
    omega
  have hxw : OldTB.wrap32 (x + w) = x + w :=
    OldTB.wrap32_eq_of _ (by omega) (by omega)
  have hyh : OldTB.wrap32 (y + h) = y + h :=
    OldTB.wrap32_eq_of _ (by omega) (by omega)
  unfold OldTB.Termbox.blit
  rw [if_neg hnp, if_neg (by simp), hxw, hyh]
  by_cases houtside : w < 1 ∨ h < 1 ∨ x + w ≤ 0 ∨ y + h ≤ 0 ∨ x ≥ W ∨ y ≥ H
  · rw [if_pos houtside]
    refine ⟨buf, rfl, ?_⟩
    intro X Y hX hXW hY hYH
    rw [if_neg (by omega)]
  · rw [if_neg houtside]
    simp only
    have hmin_x : (if x < 0 then OldTB.wrap32 (-x) else 0) = max (-x) 0 := by
      unfold OldTB.wrap32
      split <;> omega
    have hmin_y : (if y < 0 then OldTB.wrap32 (-y) else 0) = max (-y) 0 := by
      unfold OldTB.wrap32
      split <;> omega
    have hmax_x : OldTB.wrap32 (min (x + w) W - x) = min (x + w) W - x := by
      unfold OldTB.wrap32
      omega
    have hmax_y : OldTB.wrap32 (min (y + h) H - y) = min (y + h) H - y := by
      unfold OldTB.wrap32
      omega
    have hdstl : OldTB.as_usize (OldTB.wrap32 (W * H)) = (W * H).toNat := by
      rw [OldTB.wrap32_eq_of _ (by omega) (by omega),
        OldTB.as_usize_eq_of _ (by omega) (by omega)]
    rw [hmin_x, hmin_y, hmax_x, hmax_y, hdstl]
    obtain ⟨buf2, heq, hpt⟩ := OldTB.blitRows_ok cells ((W * H).toNat) W w x y
      (max (-x) 0) ((min (x + w) W - x - max (-x) 0).toNat) h H hW hw.le
      (by omega) (by omega) (by omega) (by omega) hw15 hh15 hW15 hH15 hlen
      le_rfl ((min (y + h) H - y - max (-y) 0).toNat) (max (-y) 0) buf
      (by omega) (by omega) (by omega) (by omega)
    refine ⟨buf2, heq, ?_⟩
    intro X Y hX hXW hY hYH
    rw [hpt X Y hX hXW hY]
    by_cases hC : x ≤ X ∧ X < x + w ∧ y ≤ Y ∧ Y < y + h
    · rw [if_pos (by omega), if_pos hC]
    · rw [if_neg (by omega), if_neg hC]

/-- Closed consequence of `c2_blit_clipping` at the spec's worked example:
buffer 10 by 5, `blit(-2, 0, 5, 1, [A, B, C, D, E])`. -/
theorem c2_blit_clipping_witness :
    ∃ buf2,
      OldTB.Termbox.blit true 10 5 OldTB.exBuf (-2) 0 5 1 OldTB.exCells =
        PResult.ok buf2 ∧
      ∀ X Y : Int, 0 ≤ X → X < 10 → 0 ≤ Y → Y < 5 →
        buf2 ((Y*10 + X).toNat) =
          if -2 ≤ X ∧ X < -2 + 5 ∧ 0 ≤ Y ∧ Y < 0 + 1
          then OldTB.exCells.getD ((Y - 0)*5 + (X - -2)).toNat
            OldTB.defaultCell
          else OldTB.exBuf ((Y*10 + X).toNat) :=
  c2_blit_clipping 10 5 OldTB.exBuf (-2) 0 5 1 OldTB.exCells (by decide)
    (by decide) (by decide) (by decide) (by decide) (by decide) (by decide)
    (by decide) (by decide) (by decide) (by decide)

/-- C3 counterexample: the claim also covers a call on a closed session with
`w = h = 1` and an empty source slice, but there the length assertion at the
top of `blit` fires before the closed-session check, so the call panics
instead of being a safe no-op. -/
theorem c3_blit_noop_counterexample :
    OldTB.Termbox.blit false 10 5 OldTB.exBuf 0 0 1 1 [] = PResult.panicked ∧
    OldTB.Termbox.blit false 10 5 OldTB.exBuf 0 0 1 1 [] ≠
      PResult.ok OldTB.exBuf := by
  have h1 : OldTB.Termbox.blit false 10 5 OldTB.exBuf 0 0 1 1 [] =
      PResult.panicked := rfl
  refine ⟨h1, ?_⟩
  rw [h1]
  exact fun h => PResult.noConfusion h

/-- C3 as amended: provided the caller obeys the length precondition
(`cells.len() >= w*h` whenever `w > 0` and `h > 0` — violating it makes the
assertion at the top of `blit` panic even on a closed session) and the
arguments stay in the range where the source's `i32` arithmetic cannot wrap
(dimensions at most `2^15`, offsets at most `2^30` in magnitude), a call on
a closed session, or with `w < 1`, or `h < 1`, or with the rectangle
entirely outside the buffer (`x+w <= 0`, `y+h <= 0`, `x >= W` or `y >= H`),
writes zero cells and does not error or panic. -/
theorem c3_blit_noop_amended (is_open : Bool) (W H : Int)
    (buf : Nat → OldTB.Cell) (x y w h : Int) (cells : List OldTB.Cell)
    (hw30 : -(2^30) ≤ w ∧ w ≤ 2^15) (hh30 : -(2^30) ≤ h ∧ h ≤ 2^15)
    (hx30 : -(2^30) ≤ x ∧ x ≤ 2^30) (hy30 : -(2^30) ≤ y ∧ y ≤ 2^30)
    (hlen : 0 < w → 0 < h → (w * h).toNat ≤ cells.length)
    (hcond : is_open = false ∨ w < 1 ∨ h < 1 ∨ x + w ≤ 0 ∨ y + h ≤ 0 ∨
      W ≤ x ∨ H ≤ y) :
    OldTB.Termbox.blit is_open W H buf x y w h cells = PResult.ok buf := by
  have hnp : ¬(w > 0 ∧ h > 0 ∧
      ¬(cells.length ≥ OldTB.as_usize (OldTB.wrap32 (w * h)))) := by
    rintro ⟨hw0, hh0, hbad⟩
    have h1 : 0 < w * h := mul_pos hw0 hh0
    have h2 : w * h ≤ 2^15 * 2^15 :=
      mul_le_mul hw30.2 hh30.2 hh0.le (by norm_num)
    have hass : OldTB.as_usize (OldTB.wrap32 (w * h)) = (w * h).toNat := by
      rw [OldTB.wrap32_eq_of _ (by omega) (by omega),
        OldTB.as_usize_eq_of _ (by omega) (by omega)]
    rw [hass] at hbad
    exact hbad (hlen hw0 hh0)
  unfold OldTB.Termbox.blit
  rw [if_neg hnp]
  cases is_open with
  | false => rw [if_pos (by simp)]
  | true =>
      rcases hcond with hc | hc
      · exact absurd hc (by simp)
      · have hxw : OldTB.wrap32 (x + w) = x + w :=
          OldTB.wrap32_eq_of _ (by omega) (by omega)
        have hyh : OldTB.wrap32 (y + h) = y + h :=
          OldTB.wrap32_eq_of _ (by omega) (by omega)
        rw [if_neg (by simp), hxw, hyh, if_pos (by omega)]

/-- Closed consequence of `c3_blit_noop_amended` at a concrete fully
offscreen rectangle (`x = 12 >= W = 10`) with an adequate source slice. -/
theorem c3_blit_noop_amended_witness :
    OldTB.Termbox.blit true 10 5 OldTB.exBuf 12 0 2 2 OldTB.exCells =
      PResult.ok OldTB.exBuf :=
  c3_blit_noop_amended true 10 5 OldTB.exBuf 12 0 2 2 OldTB.exCells
    (by decide) (by decide) (by decide) (by decide) (fun _ _ => by decide)
    (by decide)

/-- C4: event decode totality: for every raw event record, a Key kind tag
decodes to `Event::Key` with the key copied verbatim, the character from
Unicode validation and the alt flag from the alt-modifier bit; a Resize kind
tag decodes to `Event::Resize` with width and height copied verbatim; a
Mouse kind tag whose button code is known decodes to `Event::Mouse`; and any
other kind tag yields the decode failure `None`.  Each case reads only the
payload fields of the matched kind. -/
theorem c4_event_decode_totality (raw : NewTB.RawEvent) :
    (raw.etype = NewTB.TB_EVENT_KEY →
      NewTB.Event.from_raw raw = PResult.ok (some (NewTB.Event.key
        { key := raw.key, ch := char_from_u32 raw.ch,
          alt := raw.emod &&& NewTB.TB_MOD_ALT != 0 }))) ∧
    (raw.etype = NewTB.TB_EVENT_RESIZE →
      NewTB.Event.from_raw raw =
        PResult.ok (some (NewTB.Event.resize ⟨raw.w, raw.h⟩))) ∧
    (∀ b, raw.etype = NewTB.TB_EVENT_MOUSE →
      NewTB.MouseButton.from_raw raw.key = some b →
      NewTB.Event.from_raw raw =
        PResult.ok (some (NewTB.Event.mouse ⟨b, raw.x, raw.y⟩))) ∧
    (raw.etype ≠ NewTB.TB_EVENT_KEY → raw.etype ≠ NewTB.TB_EVENT_RESIZE →
      raw.etype ≠ NewTB.TB_EVENT_MOUSE →
      NewTB.Event.from_raw raw = PResult.ok none) := by
  refine ⟨?_, ?_, ?_, ?_⟩
  · intro hk
    simp [NewTB.Event.from_raw, NewTB.KeyEvent.from_raw, hk, unwrapP,
      PResult.map]
  · intro hk
    simp [NewTB.Event.from_raw, NewTB.ResizeEvent.from_raw, hk, unwrapP,
      PResult.map, NewTB.TB_EVENT_RESIZE, NewTB.TB_EVENT_KEY]
  · intro b hk hb
    simp [NewTB.Event.from_raw, NewTB.MouseEvent.from_raw, hk, hb, unwrapP,
      PResult.map, NewTB.TB_EVENT_MOUSE, NewTB.TB_EVENT_KEY,
      NewTB.TB_EVENT_RESIZE]
  · intro h1 h2 h3
    simp [NewTB.Event.from_raw, h1, h2, h3]

/-- C5: an unknown mouse button is a hard decode failure: for every raw
event record of the Mouse kind whose key code is none of the six known mouse
codes, `Event::from_raw` panics (the `unwrap` of `MouseButton::from_raw`
fails); the record is neither coerced to a default button, nor downgraded to
another event variant, nor silently dropped. -/
theorem c5_unknown_mouse_button_hard_failure (raw : NewTB.RawEvent)
    (hkind : raw.etype = NewTB.TB_EVENT_MOUSE)
    (hb1 : raw.key ≠ NewTB.TB_KEY_MOUSE_LEFT)
    (hb2 : raw.key ≠ NewTB.TB_KEY_MOUSE_RIGHT)
    (hb3 : raw.key ≠ NewTB.TB_KEY_MOUSE_MIDDLE)
    (hb4 : raw.key ≠ NewTB.TB_KEY_MOUSE_RELEASE)
    (hb5 : raw.key ≠ NewTB.TB_KEY_MOUSE_WHEEL_UP)
    (hb6 : raw.key ≠ NewTB.TB_KEY_MOUSE_WHEEL_DOWN) :
    NewTB.Event.from_raw raw = PResult.panicked := by
  have hfr : NewTB.MouseButton.from_raw raw.key = none := by
    simp [NewTB.MouseButton.from_raw, hb1, hb2, hb3, hb4, hb5, hb6]
  simp [NewTB.Event.from_raw, NewTB.MouseEvent.from_raw, hkind, hfr, unwrapP,
    PResult.map, NewTB.TB_EVENT_MOUSE, NewTB.TB_EVENT_KEY,
    NewTB.TB_EVENT_RESIZE]

/-- Closed consequence of `c5_unknown_mouse_button_hard_failure` at the
concrete mouse record with unknown button code 0. -/
theorem c5_unknown_mouse_button_hard_failure_witness :
    NewTB.Event.from_raw ⟨3, 0, 0, 0, 0, 0, 10, 20⟩ = PResult.panicked :=
  c5_unknown_mouse_button_hard_failure ⟨3, 0, 0, 0, 0, 0, 10, 20⟩ (by decide)
    (by decide) (by decide) (by decide) (by decide) (by decide) (by decide)

/-- C8: mode codec round trip: encoding then decoding is the identity for
every `InputMode` and every `OutputMode`; encoding is total on the enums;
decoding fails exactly for codes outside the known set — for `InputMode`
after masking with `INPUT_MODE_MASK`, so a code with the orthogonal mouse
flag set still decodes to the same Esc/Alt value. -/
theorem c8_mode_round_trip :
    (∀ m : NewTB.InputMode, NewTB.InputMode.from_raw m.to_raw = some m) ∧
    (∀ m : NewTB.OutputMode, NewTB.OutputMode.from_raw m.to_raw = some m) ∧
    (∀ m : NewTB.InputMode,
      NewTB.InputMode.from_raw (m.to_raw ||| NewTB.TB_INPUT_MOUSE) = some m) ∧
    (∀ code : Nat, NewTB.InputMode.from_raw code = none ↔
      (code &&& NewTB.INPUT_MODE_MASK ≠ NewTB.TB_INPUT_ESC ∧
        code &&& NewTB.INPUT_MODE_MASK ≠ NewTB.TB_INPUT_ALT)) ∧
    (∀ code : Nat, NewTB.OutputMode.from_raw code = none ↔
      (code ≠ NewTB.TB_OUTPUT_NORMAL ∧ code ≠ NewTB.TB_OUTPUT_256 ∧
        code ≠ NewTB.TB_OUTPUT_216 ∧ code ≠ NewTB.TB_OUTPUT_GRAYSCALE)) := by
  refine ⟨?_, ?_, ?_, ?_, ?_⟩
  · intro m
    cases m <;> decide
  · intro m
    cases m <;> decide
  · intro m
    cases m <;> decide
  · intro code
    simp only [NewTB.InputMode.from_raw, NewTB.INPUT_MODE_MASK,
      NewTB.TB_INPUT_ESC, NewTB.TB_INPUT_ALT]
    split <;> simp_all
  · intro code
    simp only [NewTB.OutputMode.from_raw, NewTB.TB_OUTPUT_NORMAL,
      NewTB.TB_OUTPUT_256, NewTB.TB_OUTPUT_216, NewTB.TB_OUTPUT_GRAYSCALE]
    split <;> simp_all

/-- C10: character validation: a raw Key record whose 32-bit character field
is not a valid Unicode scalar value still decodes successfully, with the key
code and alt flag decoded normally and the character decoded to "no
character": `None` in `KeyEvent::from_raw` of the newer snapshot, the zero
character in `tb_event::to_safe_event` of the older snapshot. -/
theorem c10_char_validation (raw : NewTB.RawEvent) (e : OldTB.tb_event)
    (hkind : raw.etype = NewTB.TB_EVENT_KEY)
    (hinvalid : (0xD800 ≤ raw.ch ∧ raw.ch ≤ 0xDFFF) ∨ 0x10FFFF < raw.ch)
    (hkind2 : e.kind = 1)
    (hinvalid2 : (0xD800 ≤ e.ch ∧ e.ch ≤ 0xDFFF) ∨ 0x10FFFF < e.ch) :
    NewTB.Event.from_raw raw = PResult.ok (some (NewTB.Event.key
      { key := raw.key, ch := none,
        alt := raw.emod &&& NewTB.TB_MOD_ALT != 0 })) ∧
    ∃ ks : OldTB.KeySym, OldTB.tb_event.to_safe_event e =
      some (OldTB.Event.key ks) ∧ ks.ch = 0 ∧ ks.key = e.key := by
  have hch : char_from_u32 raw.ch = none := by
    simp [char_from_u32, hinvalid]
  have hch2 : char_from_u32 e.ch = none := by
    simp [char_from_u32, hinvalid2]
  constructor
  · simp [NewTB.Event.from_raw, NewTB.KeyEvent.from_raw, hkind, hch, unwrapP,
      PResult.map]
  · have hts : OldTB.tb_event.to_safe_event e = some (OldTB.Event.key
        ⟨match OldTB.Mods.from_bits e.mods with
          | some m => m
          | none => 0, e.key, 0⟩) := by
      simp [OldTB.tb_event.to_safe_event, hkind2, hch2]
    exact ⟨_, hts, rfl, rfl⟩

/-- Closed consequence of `c10_char_validation` at the concrete surrogate
code point 0xD800 in a Key record. -/
theorem c10_char_validation_witness :
    NewTB.Event.from_raw ⟨1, 0, 65, 0xD800, 0, 0, 0, 0⟩ =
      PResult.ok (some (NewTB.Event.key
        { key := 65, ch := none, alt := false })) ∧
    ∃ ks : OldTB.KeySym,
      OldTB.tb_event.to_safe_event ⟨1, 0, 65, 0xD800, 0, 0⟩ =
        some (OldTB.Event.key ks) ∧ ks.ch = 0 ∧ ks.key = 65 :=
  c10_char_validation ⟨1, 0, 65, 0xD800, 0, 0, 0, 0⟩ ⟨1, 0, 65, 0xD800, 0, 0⟩
    (by decide) (by decide) (by decide) (by decide)
